import Mathlib

/-
Verification of the admission-control memory bookkeeping of the Impala
scheduling subsystem, shallowly embedded from
`be/src/scheduling/query-schedule.cc` and
`be/src/scheduling/admission-controller.h`.

Machine `int64_t` quantities are modelled as `Int` (the arithmetic in the
modelled routines is comparisons, `max`/`min` and one product, with no wraparound
behaviour relied upon by the source).  Collaborators that are declared but whose
definitions are outside the sampled sources (`MemInfo::physical_mem()` and
`ReservationUtil::GetMinMemLimitFromReservation`) are passed as explicit
parameters of the embedded functions.
-/

/-- The query options consulted by `QuerySchedule::UpdateMemoryRequirements`:
the thrift `mem_limit` field together with its `__isset` flag. -/
structure TQueryOptions where
  mem_limit_isset : Bool
  mem_limit : Int
deriving DecidableEq, Repr

/-- The pool-configuration knobs read by `UpdateMemoryRequirements`
(from `TPoolConfig`). -/
structure TPoolConfig where
  min_query_mem_limit : Int
  max_query_mem_limit : Int
  clamp_mem_limit_query_option : Bool
deriving DecidableEq, Repr

/-- The slice of `QuerySchedule` state used by `UpdateMemoryRequirements`,
`GetClusterMemoryToAdmit` and the admission checks: the query options, the
planner per-host estimate (`GetPerHostMemoryEstimate`), the largest initial
reservation, the per-backend exec params (modelled by the list of backend
ids, only its size is consumed), and the two derived memory fields. -/
structure QuerySchedule where
  query_options : TQueryOptions
  per_host_mem_estimate : Int
  largest_min_reservation_ : Int
  per_backend_exec_params_ : List String
  per_backend_mem_to_admit_ : Int
  per_backend_mem_limit_ : Int
deriving DecidableEq, Repr

/-- `query_options().__isset.mem_limit && query_options().mem_limit > 0`
(query-schedule.cc line 253), i.e. the `has_query_option` flag. -/
def QuerySchedule.hasQueryOption (s : QuerySchedule) : Bool :=
  s.query_options.mem_limit_isset && decide (0 < s.query_options.mem_limit)

/-- `pool_cfg.min_query_mem_limit == 0 && pool_cfg.max_query_mem_limit == 0`
(query-schedule.cc lines 248-249), the `mimic_old_behaviour` flag. -/
def TPoolConfig.mimicOldBehaviour (cfg : TPoolConfig) : Bool :=
  decide (cfg.min_query_mem_limit = 0) && decide (cfg.max_query_mem_limit = 0)

/-- The starting value of `per_backend_mem_to_admit_`
(query-schedule.cc lines 251-265): the user-supplied mem limit when set and
positive, otherwise the planner per-host estimate raised, outside the legacy
configuration, to at least `GetMinMemLimitFromReservation` of the largest
initial reservation.  `minMemLimitFromReservation` stands for
`ReservationUtil::GetMinMemLimitFromReservation`, whose definition is outside
the sampled sources. -/
def QuerySchedule.memToAdmitStart (minMemLimitFromReservation : Int → Int)
    (s : QuerySchedule) (cfg : TPoolConfig) : Int :=
  if s.hasQueryOption then s.query_options.mem_limit
  else if cfg.mimicOldBehaviour then s.per_host_mem_estimate
  else max s.per_host_mem_estimate
    (minMemLimitFromReservation s.largest_min_reservation_)

/-- The clamp of query-schedule.cc lines 268-275: raise to
`min_query_mem_limit` when that bound is set (positive), then lower to
`max_query_mem_limit` when that bound is set. -/
def TPoolConfig.clampMemLimit (cfg : TPoolConfig) (x : Int) : Int :=
  let raised := if 0 < cfg.min_query_mem_limit
    then max x cfg.min_query_mem_limit else x
  if 0 < cfg.max_query_mem_limit
    then min raised cfg.max_query_mem_limit else raised

/-- `per_backend_mem_to_admit_` after the conditional pool-bound clamp
(query-schedule.cc lines 267-276): the clamp applies iff there is no user
option or `clamp_mem_limit_query_option` is set. -/
def QuerySchedule.memToAdmitClamped (minMemLimitFromReservation : Int → Int)
    (s : QuerySchedule) (cfg : TPoolConfig) : Int :=
  if !s.hasQueryOption || cfg.clamp_mem_limit_query_option then
    cfg.clampMemLimit (s.memToAdmitStart minMemLimitFromReservation cfg)
  else s.memToAdmitStart minMemLimitFromReservation cfg

/-- `per_backend_mem_to_admit_` after the final cap at
`MemInfo::physical_mem()` (query-schedule.cc line 280); `physical_mem` stands
for that external value. -/
def QuerySchedule.memToAdmitFinal (physical_mem : Int)
    (minMemLimitFromReservation : Int → Int)
    (s : QuerySchedule) (cfg : TPoolConfig) : Int :=
  min (s.memToAdmitClamped minMemLimitFromReservation cfg) physical_mem

/-- `QuerySchedule::UpdateMemoryRequirements` (query-schedule.cc lines
241-287): computes `per_backend_mem_to_admit_` through the stages above and
sets `per_backend_mem_limit_` to it, except in the legacy configuration
(`min_query_mem_limit == 0 && max_query_mem_limit == 0`) with no user mem
limit, where the enforced limit is -1 (unlimited). -/
def QuerySchedule.UpdateMemoryRequirements (physical_mem : Int)
    (minMemLimitFromReservation : Int → Int)
    (s : QuerySchedule) (cfg : TPoolConfig) : QuerySchedule :=
  let v := s.memToAdmitFinal physical_mem minMemLimitFromReservation cfg
  { s with
    per_backend_mem_to_admit_ := v
    per_backend_mem_limit_ :=
      if cfg.mimicOldBehaviour && !s.hasQueryOption then -1 else v }

/-- `QuerySchedule::GetClusterMemoryToAdmit` (query-schedule.cc lines
237-239): `per_backend_mem_to_admit() * per_backend_exec_params_.size()`. -/
def QuerySchedule.GetClusterMemoryToAdmit (s : QuerySchedule) : Int :=
  s.per_backend_mem_to_admit_ * (s.per_backend_exec_params_.length : Int)

/-- The per-pool accounting fields of `AdmissionController::PoolStats`
(admission-controller.h lines 455-470). -/
structure PoolStats where
  agg_num_running_ : Int
  agg_num_queued_ : Int
  agg_mem_reserved_ : Int
  local_mem_admitted_ : Int
deriving DecidableEq, Repr

/-- `AdmissionController::PoolStats::EffectiveMemReserved`
(admission-controller.h lines 390-392):
`std::max(agg_mem_reserved_, local_mem_admitted_)`. -/
def PoolStats.EffectiveMemReserved (p : PoolStats) : Int :=
  max p.agg_mem_reserved_ p.local_mem_admitted_

/-- Modelled from the spec: `AdmissionController::CanAccommodateMaxInitialReservation`
(only its declaration, admission-controller.h lines 597-608, is in the
sources).  Per the spec (section 4.2) it compares the effective per-host
limit, i.e. the final admitted limit after clamping (`per_backend_mem_limit_`,
where -1 and 0 mean no enforced limit), against the largest initial
reservation, and fails exactly when a positive limit falls short of that
reservation. -/
def CanAccommodateMaxInitialReservation (s : QuerySchedule) : Bool :=
  !(decide (0 < s.per_backend_mem_limit_) &&
    decide (s.per_backend_mem_limit_ < s.largest_min_reservation_))

/-- Claim C1: `PoolStats::EffectiveMemReserved` is the maximum of the pool's
aggregate gossiped memory reserved and its locally admitted memory, and is
never their sum when both are positive. -/
theorem effectiveMemReserved_is_max (p : PoolStats) :
    p.EffectiveMemReserved = max p.agg_mem_reserved_ p.local_mem_admitted_ ∧
    (0 < p.agg_mem_reserved_ → 0 < p.local_mem_admitted_ →
      p.EffectiveMemReserved ≠ p.agg_mem_reserved_ + p.local_mem_admitted_) := by
  refine ⟨rfl, ?_⟩
  intro ha hl
  unfold PoolStats.EffectiveMemReserved
  omega

/-- Witness for C1 at a concrete pool state. -/
theorem effectiveMemReserved_is_max_witness :
    PoolStats.EffectiveMemReserved ⟨1, 0, 5, 3⟩ ≠ 5 + 3 :=
  (effectiveMemReserved_is_max ⟨1, 0, 5, 3⟩).2 (by decide) (by decide)

/-- Claim C4: the final `per_backend_mem_to_admit_` produced by
`UpdateMemoryRequirements` never exceeds the physical memory of a backend, in
every path. -/
theorem updateMemoryRequirements_capped_at_physical (physical_mem : Int)
    (minMemLimitFromReservation : Int → Int)
    (s : QuerySchedule) (cfg : TPoolConfig) :
    (s.UpdateMemoryRequirements physical_mem minMemLimitFromReservation
        cfg).per_backend_mem_to_admit_ ≤ physical_mem := by
  simp only [QuerySchedule.UpdateMemoryRequirements, QuerySchedule.memToAdmitFinal]
  exact min_le_right _ _

/-- Claim C6: `GetClusterMemoryToAdmit` is the per-backend memory to admit
multiplied by the number of participating backends. -/
theorem getClusterMemoryToAdmit_eq (s : QuerySchedule) :
    s.GetClusterMemoryToAdmit =
      s.per_backend_mem_to_admit_ * (s.per_backend_exec_params_.length : Int) :=
  rfl

/-- Claim C2: the derived per-backend memory to admit starts from the user
memory limit when one is supplied; otherwise it starts from the planner
per-host estimate, raised, when the pool min/max limits are not both zero, to
at least the minimum memory limit derived from the largest initial
reservation. -/
theorem memToAdmitStart_spec (minMemLimitFromReservation : Int → Int)
    (s : QuerySchedule) (cfg : TPoolConfig) :
    (cfg.mimicOldBehaviour = true ↔
      (cfg.min_query_mem_limit = 0 ∧ cfg.max_query_mem_limit = 0)) ∧
    (s.hasQueryOption = true →
      s.memToAdmitStart minMemLimitFromReservation cfg =
        s.query_options.mem_limit) ∧
    (s.hasQueryOption = false → cfg.mimicOldBehaviour = true →
      s.memToAdmitStart minMemLimitFromReservation cfg =
        s.per_host_mem_estimate) ∧
    (s.hasQueryOption = false → cfg.mimicOldBehaviour = false →
      s.memToAdmitStart minMemLimitFromReservation cfg =
        max s.per_host_mem_estimate
          (minMemLimitFromReservation s.largest_min_reservation_) ∧
      minMemLimitFromReservation s.largest_min_reservation_ ≤
        s.memToAdmitStart minMemLimitFromReservation cfg) := by
  refine ⟨?_, ?_, ?_, ?_⟩
  · simp [TPoolConfig.mimicOldBehaviour]
  · intro h
    simp [QuerySchedule.memToAdmitStart, h]
  · intro h hm
    simp [QuerySchedule.memToAdmitStart, h, hm]
  · intro h hm
    simp [QuerySchedule.memToAdmitStart, h, hm]

/-- Witness for C2 at a concrete schedule and pool config (no user limit,
pool bounds set, reservation-derived minimum above the estimate). -/
theorem memToAdmitStart_spec_witness :
    QuerySchedule.memToAdmitStart (fun r => r + 2)
        ⟨⟨false, 0⟩, 10, 5, [], 0, 0⟩ ⟨4, 100, false⟩ = max 10 (5 + 2) ∧
      (5 : Int) + 2 ≤ QuerySchedule.memToAdmitStart (fun r => r + 2)
        ⟨⟨false, 0⟩, 10, 5, [], 0, 0⟩ ⟨4, 100, false⟩ :=
  (memToAdmitStart_spec (fun r => r + 2)
    ⟨⟨false, 0⟩, 10, 5, [], 0, 0⟩ ⟨4, 100, false⟩).2.2.2 (by decide) (by decide)

/-- Claim C3: the pool-bound clamp applies exactly when no user memory limit
is set or `clamp_mem_limit_query_option` is true; it applies only the bounds
that are set (positive), clamping into `[min_query_mem_limit,
max_query_mem_limit]`; with a user limit and the clamp option false, the
starting value passes through unclamped. -/
theorem memToAdmitClamped_spec (minMemLimitFromReservation : Int → Int)
    (s : QuerySchedule) (cfg : TPoolConfig) :
    ((s.hasQueryOption = false ∨ cfg.clamp_mem_limit_query_option = true) →
      s.memToAdmitClamped minMemLimitFromReservation cfg =
        cfg.clampMemLimit (s.memToAdmitStart minMemLimitFromReservation cfg) ∧
      (0 < cfg.max_query_mem_limit →
        s.memToAdmitClamped minMemLimitFromReservation cfg ≤
          cfg.max_query_mem_limit) ∧
      (0 < cfg.min_query_mem_limit →
        (cfg.max_query_mem_limit ≤ 0 ∨
          cfg.min_query_mem_limit ≤ cfg.max_query_mem_limit) →
        cfg.min_query_mem_limit ≤
          s.memToAdmitClamped minMemLimitFromReservation cfg) ∧
      (cfg.min_query_mem_limit ≤ 0 → cfg.max_query_mem_limit ≤ 0 →
        s.memToAdmitClamped minMemLimitFromReservation cfg =
          s.memToAdmitStart minMemLimitFromReservation cfg)) ∧
    (s.hasQueryOption = true → cfg.clamp_mem_limit_query_option = false →
      s.memToAdmitClamped minMemLimitFromReservation cfg =
        s.memToAdmitStart minMemLimitFromReservation cfg) := by
  constructor
  · intro hcond
    have hb : (!s.hasQueryOption || cfg.clamp_mem_limit_query_option) = true := by
      rcases hcond with h | h <;> simp [h]
    refine ⟨by simp [QuerySchedule.memToAdmitClamped, hb], ?_, ?_, ?_⟩
    · intro hmx
      simp only [QuerySchedule.memToAdmitClamped, hb, if_true,
        TPoolConfig.clampMemLimit]
      split <;> simp [hmx]
    · intro hmn hle
      simp only [QuerySchedule.memToAdmitClamped, hb, if_true,
        TPoolConfig.clampMemLimit]
      split
      · rcases hle with h | h <;> simp [hmn] <;> omega
      · omega
    · intro hmn hmx
      simp only [QuerySchedule.memToAdmitClamped, hb, if_true,
        TPoolConfig.clampMemLimit]
      split <;> split <;> omega
  · intro hq hc
    simp [QuerySchedule.memToAdmitClamped, hq, hc]

/-- Witness for C3 at a concrete schedule and pool config (no user limit,
both bounds set, value clamped down to the max bound). -/
theorem memToAdmitClamped_spec_witness :
    QuerySchedule.memToAdmitClamped (fun r => r)
        ⟨⟨false, 0⟩, 500, 0, [], 0, 0⟩ ⟨4, 100, false⟩ =
      TPoolConfig.clampMemLimit ⟨4, 100, false⟩
        (QuerySchedule.memToAdmitStart (fun r => r)
          ⟨⟨false, 0⟩, 500, 0, [], 0, 0⟩ ⟨4, 100, false⟩) ∧
      QuerySchedule.memToAdmitClamped (fun r => r)
        ⟨⟨false, 0⟩, 500, 0, [], 0, 0⟩ ⟨4, 100, false⟩ ≤ 100 := by
  have h := (memToAdmitClamped_spec (fun r => r)
    ⟨⟨false, 0⟩, 500, 0, [], 0, 0⟩ ⟨4, 100, false⟩).1 (Or.inl (by decide))
  exact ⟨h.1, h.2.1 (by decide)⟩

/-- Claim C5: `per_backend_mem_limit_` equals `per_backend_mem_to_admit_`
except in the legacy path (both pool bounds zero and no user limit), where
the enforced limit is -1 while the admitted value keeps the derived value. -/
theorem updateMemoryRequirements_limit_spec (physical_mem : Int)
    (minMemLimitFromReservation : Int → Int)
    (s : QuerySchedule) (cfg : TPoolConfig) :
    ((cfg.mimicOldBehaviour = true ∧ s.hasQueryOption = false) →
      (s.UpdateMemoryRequirements physical_mem minMemLimitFromReservation
          cfg).per_backend_mem_limit_ = -1 ∧
      (s.UpdateMemoryRequirements physical_mem minMemLimitFromReservation
          cfg).per_backend_mem_to_admit_ =
        s.memToAdmitFinal physical_mem minMemLimitFromReservation cfg) ∧
    (¬(cfg.mimicOldBehaviour = true ∧ s.hasQueryOption = false) →
      (s.UpdateMemoryRequirements physical_mem minMemLimitFromReservation
          cfg).per_backend_mem_limit_ =
        (s.UpdateMemoryRequirements physical_mem minMemLimitFromReservation
          cfg).per_backend_mem_to_admit_) := by
  constructor
  · rintro ⟨hm, hq⟩
    simp [QuerySchedule.UpdateMemoryRequirements, hm, hq]
  · intro h
    have : (cfg.mimicOldBehaviour && !s.hasQueryOption) = false := by
      cases hm : cfg.mimicOldBehaviour <;> cases hq : s.hasQueryOption <;>
        simp_all
    simp [QuerySchedule.UpdateMemoryRequirements, this]

/-- Witness for C5 at a concrete legacy-path input (both bounds zero, no user
limit): the enforced limit is -1 while the admitted value is the derived
estimate. -/
theorem updateMemoryRequirements_limit_spec_witness :
    (QuerySchedule.UpdateMemoryRequirements 1000 (fun r => r)
        ⟨⟨false, 0⟩, 50, 0, [], 0, 0⟩ ⟨0, 0, false⟩).per_backend_mem_limit_ = -1 ∧
      (QuerySchedule.UpdateMemoryRequirements 1000 (fun r => r)
        ⟨⟨false, 0⟩, 50, 0, [], 0, 0⟩ ⟨0, 0, false⟩).per_backend_mem_to_admit_ =
        QuerySchedule.memToAdmitFinal 1000 (fun r => r)
          ⟨⟨false, 0⟩, 50, 0, [], 0, 0⟩ ⟨0, 0, false⟩ :=
  (updateMemoryRequirements_limit_spec 1000 (fun r => r)
    ⟨⟨false, 0⟩, 50, 0, [], 0, 0⟩ ⟨0, 0, false⟩).1 ⟨by decide, by decide⟩

/-- The schedule with the user mem limit option marked unset, other fields
unchanged. -/
def QuerySchedule.withMemLimitUnset (s : QuerySchedule) : QuerySchedule :=
  { s with query_options := { s.query_options with mem_limit_isset := false } }

/-- Claim C10: a user mem limit that is zero or negative is treated exactly
as if no user limit were provided: `has_query_option` is false, both derived
fields agree with the unset-option derivation, and in the legacy
configuration the enforced limit is -1. -/
theorem nonpositive_mem_limit_ignored (physical_mem : Int)
    (minMemLimitFromReservation : Int → Int)
    (s : QuerySchedule) (cfg : TPoolConfig)
    (_hset : s.query_options.mem_limit_isset = true)
    (hnp : s.query_options.mem_limit ≤ 0) :
    s.hasQueryOption = false ∧
    (s.UpdateMemoryRequirements physical_mem minMemLimitFromReservation
        cfg).per_backend_mem_to_admit_ =
      (s.withMemLimitUnset.UpdateMemoryRequirements physical_mem
        minMemLimitFromReservation cfg).per_backend_mem_to_admit_ ∧
    (s.UpdateMemoryRequirements physical_mem minMemLimitFromReservation
        cfg).per_backend_mem_limit_ =
      (s.withMemLimitUnset.UpdateMemoryRequirements physical_mem
        minMemLimitFromReservation cfg).per_backend_mem_limit_ ∧
    (cfg.mimicOldBehaviour = true →
      (s.UpdateMemoryRequirements physical_mem minMemLimitFromReservation
        cfg).per_backend_mem_limit_ = -1) := by
  have h1 : s.hasQueryOption = false := by
    simp only [QuerySchedule.hasQueryOption, Bool.and_eq_false_iff,
      decide_eq_false_iff_not, not_lt]
    exact Or.inr hnp
  have hd : ¬ (0 < s.query_options.mem_limit) := by omega
  refine ⟨h1, ?_, ?_, ?_⟩
  · simp [QuerySchedule.UpdateMemoryRequirements, QuerySchedule.memToAdmitFinal,
      QuerySchedule.memToAdmitClamped, QuerySchedule.memToAdmitStart,
      QuerySchedule.hasQueryOption, QuerySchedule.withMemLimitUnset, hd]
  · simp [QuerySchedule.UpdateMemoryRequirements, QuerySchedule.memToAdmitFinal,
      QuerySchedule.memToAdmitClamped, QuerySchedule.memToAdmitStart,
      QuerySchedule.hasQueryOption, QuerySchedule.withMemLimitUnset, hd]
  · intro hm
    simp [QuerySchedule.UpdateMemoryRequirements, h1, hm]

/-- Witness for C10 at a concrete schedule whose mem limit option is set to a
negative value, in a legacy pool config. -/
theorem nonpositive_mem_limit_ignored_witness :
    QuerySchedule.hasQueryOption ⟨⟨true, -5⟩, 50, 0, [], 0, 0⟩ = false ∧
      (QuerySchedule.UpdateMemoryRequirements 1000 (fun x => x)
        ⟨⟨true, -5⟩, 50, 0, [], 0, 0⟩ ⟨0, 0, false⟩).per_backend_mem_limit_ = -1 := by
  have h := nonpositive_mem_limit_ignored 1000 (fun x => x)
    ⟨⟨true, -5⟩, 50, 0, [], 0, 0⟩ ⟨0, 0, false⟩ (by decide) (by decide)
  exact ⟨h.1, h.2.2.2 (by decide)⟩

/-- Lower-bound facts about the clamped per-backend memory outside the legacy
no-user-limit path: the clamped value is nonnegative, and it can only fall
below the largest initial reservation by being positive (a positive max
bound or user limit).  Shared helper for the admitted-reservation claim. -/
lemma memToAdmitClamped_lower (minMemLimitFromReservation : Int → Int)
    (s : QuerySchedule) (cfg : TPoolConfig)
    (hres : 0 ≤ s.largest_min_reservation_)
    (hderived : s.largest_min_reservation_ ≤
      minMemLimitFromReservation s.largest_min_reservation_)
    (hnotlegacy : ¬(cfg.mimicOldBehaviour = true ∧ s.hasQueryOption = false)) :
    0 ≤ s.memToAdmitClamped minMemLimitFromReservation cfg ∧
    (s.memToAdmitClamped minMemLimitFromReservation cfg <
        s.largest_min_reservation_ →
      0 < s.memToAdmitClamped minMemLimitFromReservation cfg) := by
  cases hq : s.hasQueryOption with
  | true =>
    have hu : 0 < s.query_options.mem_limit := by
      have h := hq
      simp only [QuerySchedule.hasQueryOption, Bool.and_eq_true,
        decide_eq_true_eq] at h
      exact h.2
    have hc : s.memToAdmitClamped minMemLimitFromReservation cfg =
        if cfg.clamp_mem_limit_query_option then
          cfg.clampMemLimit s.query_options.mem_limit
        else s.query_options.mem_limit := by
      simp [QuerySchedule.memToAdmitClamped, QuerySchedule.memToAdmitStart, hq]
    rw [hc]
    simp only [TPoolConfig.clampMemLimit]
    split_ifs <;> exact ⟨by omega, fun h => by omega⟩
  | false =>
    have hm : cfg.mimicOldBehaviour = false := by
      cases hmm : cfg.mimicOldBehaviour
      · rfl
      · exact absurd ⟨hmm, hq⟩ hnotlegacy
    have hc : s.memToAdmitClamped minMemLimitFromReservation cfg =
        cfg.clampMemLimit (max s.per_host_mem_estimate
          (minMemLimitFromReservation s.largest_min_reservation_)) := by
      simp [QuerySchedule.memToAdmitClamped, QuerySchedule.memToAdmitStart,
        hq, hm]
    rw [hc]
    simp only [TPoolConfig.clampMemLimit]
    split_ifs <;> exact ⟨by omega, fun h => by omega⟩

/-- Claim C7: whenever `UpdateMemoryRequirements` was run outside the legacy
no-bounds path (pool min = max = 0 with no user limit) and the
accommodation check on the resulting schedule passes (as it must for every
admitted query), the per-backend memory to admit is at least the largest
initial reservation.  Hypotheses: the reservation is nonnegative, physical
memory is positive, and the externally supplied
`GetMinMemLimitFromReservation` returns at least its argument. -/
theorem admitted_meets_initial_reservation (physical_mem : Int)
    (minMemLimitFromReservation : Int → Int)
    (s : QuerySchedule) (cfg : TPoolConfig)
    (hres : 0 ≤ s.largest_min_reservation_)
    (hphys : 0 < physical_mem)
    (hderived : s.largest_min_reservation_ ≤
      minMemLimitFromReservation s.largest_min_reservation_)
    (hnotlegacy : ¬(cfg.mimicOldBehaviour = true ∧ s.hasQueryOption = false))
    (hacc : CanAccommodateMaxInitialReservation
      (s.UpdateMemoryRequirements physical_mem minMemLimitFromReservation
        cfg) = true) :
    s.largest_min_reservation_ ≤
      (s.UpdateMemoryRequirements physical_mem minMemLimitFromReservation
        cfg).per_backend_mem_to_admit_ := by
  have hflag : (cfg.mimicOldBehaviour && !s.hasQueryOption) = false := by
    cases hmm : cfg.mimicOldBehaviour <;> cases hqq : s.hasQueryOption <;>
      simp_all
  obtain ⟨hc0, hc1⟩ := memToAdmitClamped_lower minMemLimitFromReservation s cfg
    hres hderived hnotlegacy
  have hv : (s.UpdateMemoryRequirements physical_mem minMemLimitFromReservation
      cfg).per_backend_mem_to_admit_ =
      min (s.memToAdmitClamped minMemLimitFromReservation cfg) physical_mem := rfl
  have hlim : (s.UpdateMemoryRequirements physical_mem
      minMemLimitFromReservation cfg).per_backend_mem_limit_ =
      min (s.memToAdmitClamped minMemLimitFromReservation cfg) physical_mem := by
    simp [QuerySchedule.UpdateMemoryRequirements, QuerySchedule.memToAdmitFinal,
      hflag]
  have hrr : (s.UpdateMemoryRequirements physical_mem
      minMemLimitFromReservation cfg).largest_min_reservation_ =
      s.largest_min_reservation_ := rfl
  simp only [CanAccommodateMaxInitialReservation, hlim, hrr,
    Bool.not_eq_true', Bool.and_eq_false_iff, decide_eq_false_iff_not,
    not_lt] at hacc
  rw [hv]
  rcases lt_or_le (s.memToAdmitClamped minMemLimitFromReservation cfg)
      s.largest_min_reservation_ with hlt | hge
  · have := hc1 hlt
    rcases hacc with h | h <;> omega
  · rcases hacc with h | h <;> omega

/-- Witness for C7 at a concrete input: no user limit, pool min bound 4, no
max bound, estimate 10, reservation 5, derived minimum 7, physical memory
100; the accommodation check passes and the admitted memory 10 meets the
reservation 5. -/
theorem admitted_meets_initial_reservation_witness :
    (5 : Int) ≤ (QuerySchedule.UpdateMemoryRequirements 100 (fun x => x + 2)
      ⟨⟨false, 0⟩, 10, 5, [], 0, 0⟩ ⟨4, 0, false⟩).per_backend_mem_to_admit_ :=
  admitted_meets_initial_reservation 100 (fun x => x + 2)
    ⟨⟨false, 0⟩, 10, 5, [], 0, 0⟩ ⟨4, 0, false⟩
    (by decide) (by decide) (by decide) (by decide) (by decide)

/-- `AdmissionOutcome` (admission-controller.h lines 47-51). -/
inductive AdmissionOutcome where
  | ADMITTED
  | REJECTED_OR_TIMED_OUT
  | CANCELLED
deriving DecidableEq, Repr

/-- The `Status` values observable from `SubmitForAdmission` per its contract
(admission-controller.h lines 240-244): `Status::OK`, `Status::CANCELLED`, or
a failed status carrying a reason message. -/
inductive Status where
  | ok
  | cancelled
  | failed (msg : String)
deriving DecidableEq, Repr

/-- The resolution of the multi-producer outcome signal a queued request
blocks on: set to ADMITTED by the dequeue scheduler, to CANCELLED by the
caller, or timed out (spec section 4.3 step 5). -/
inductive QueueResolution where
  | resolvedAdmitted
  | resolvedCancelled
  | resolvedTimeout
deriving DecidableEq, Repr

/-- Modelled from the spec: `AdmissionController::SubmitForAdmission`
(admission-controller.h lines 238-248 give only the declaration and its
contract; the definition is outside the sampled sources).  Spec section 4.3:
after deriving the memory requirements, reject immediately when
`RejectImmediately` holds; else admit synchronously when `CanAdmitRequest`
with admit_from_queue false holds; else queue and block on the outcome
signal, which resolves to admission, cancellation, or timeout.  The two
decision predicates and the signal resolution are inputs of the model. -/
def SubmitForAdmission (rejectImmediately : Bool) (rejectReason : String)
    (canAdmitNotFromQueue : Bool) (resolution : QueueResolution)
    (timeoutReason : String) : AdmissionOutcome × Status :=
  if rejectImmediately then
    (AdmissionOutcome.REJECTED_OR_TIMED_OUT, Status.failed rejectReason)
  else if canAdmitNotFromQueue then (AdmissionOutcome.ADMITTED, Status.ok)
  else
    match resolution with
    | QueueResolution.resolvedAdmitted =>
        (AdmissionOutcome.ADMITTED, Status.ok)
    | QueueResolution.resolvedCancelled =>
        (AdmissionOutcome.CANCELLED, Status.cancelled)
    | QueueResolution.resolvedTimeout =>
        (AdmissionOutcome.REJECTED_OR_TIMED_OUT, Status.failed timeoutReason)

/-- Claim C8: `SubmitForAdmission` ends in exactly one of the three
outcome/status pairings; immediate rejection yields REJECTED_OR_TIMED_OUT
with the rejection reason and no queueing, synchronous admission yields
ADMITTED with OK, and otherwise the queued outcome resolves to ADMITTED/OK,
CANCELLED/CANCELLED, or REJECTED_OR_TIMED_OUT with a failed timeout
reason. -/
theorem submitForAdmission_outcomes (rejectImmediately : Bool)
    (rejectReason : String) (canAdmitNotFromQueue : Bool)
    (resolution : QueueResolution) (timeoutReason : String) :
    (SubmitForAdmission rejectImmediately rejectReason canAdmitNotFromQueue
        resolution timeoutReason = (AdmissionOutcome.ADMITTED, Status.ok) ∨
      SubmitForAdmission rejectImmediately rejectReason canAdmitNotFromQueue
        resolution timeoutReason =
          (AdmissionOutcome.CANCELLED, Status.cancelled) ∨
      ∃ msg, SubmitForAdmission rejectImmediately rejectReason
        canAdmitNotFromQueue resolution timeoutReason =
          (AdmissionOutcome.REJECTED_OR_TIMED_OUT, Status.failed msg)) ∧
    (rejectImmediately = true →
      SubmitForAdmission rejectImmediately rejectReason canAdmitNotFromQueue
        resolution timeoutReason =
          (AdmissionOutcome.REJECTED_OR_TIMED_OUT,
            Status.failed rejectReason)) ∧
    (rejectImmediately = false → canAdmitNotFromQueue = true →
      SubmitForAdmission rejectImmediately rejectReason canAdmitNotFromQueue
        resolution timeoutReason = (AdmissionOutcome.ADMITTED, Status.ok)) := by
  cases rejectImmediately <;> cases canAdmitNotFromQueue <;>
    cases resolution <;> simp [SubmitForAdmission]

/-- Witness for C8: an immediately rejected request carries the rejection
reason with outcome REJECTED_OR_TIMED_OUT. -/
theorem submitForAdmission_outcomes_witness :
    SubmitForAdmission true ("queue full") false
        QueueResolution.resolvedAdmitted ("timed out") =
      (AdmissionOutcome.REJECTED_OR_TIMED_OUT, Status.failed ("queue full")) :=
  (submitForAdmission_outcomes true ("queue full") false
    QueueResolution.resolvedAdmitted ("timed out")).2.1 rfl

/-- Modelled from the spec: the state of one pool's FIFO `RequestQueue`
(admission-controller.h lines 541-548) on one coordinator, together with the
order in which requests have been admitted from it.  Requests are identified
by ids. -/
structure PoolQueueState where
  queue : List Nat
  admittedOrder : List Nat
deriving DecidableEq, Repr

/-- Modelled from the spec: one pass of the dequeue scheduler over a single
pool (spec section 4.4 steps 2-3; `AdmissionController::DequeueLoop` is only
declared in admission-controller.h, line 588).  Up to `maxToDequeue` requests
are taken from the head; each head accepted by `CanAdmitRequest`
(admit_from_queue true) is removed and admitted, and the first refused head
stops the pass: the head is never skipped. -/
def dequeuePass (canAdmitRequest : Nat → Bool) :
    Nat → PoolQueueState → PoolQueueState
  | 0, st => st
  | Nat.succ n, st =>
    match st.queue with
    | [] => st
    | q :: rest =>
      if canAdmitRequest q then
        dequeuePass canAdmitRequest n
          { queue := rest, admittedOrder := st.admittedOrder ++ [q] }
      else st

/-- Modelled from the spec: the events affecting one pool's queue on one
coordinator, serialized by the controller lock: `SubmitForAdmission`
appending a `QueueNode` at the pool's tail (spec section 4.3 step 4), and a
dequeue-scheduler pass with the admission predicate and dequeue budget
current at that moment (spec section 4.4). -/
inductive QueueEvent where
  | enqueue (request : Nat)
  | dequeueTick (canAdmitRequest : Nat → Bool) (maxToDequeue : Nat)

/-- Apply one queue event to a pool queue state. -/
def applyQueueEvent : QueueEvent → PoolQueueState → PoolQueueState
  | QueueEvent.enqueue r, st => { st with queue := st.queue ++ [r] }
  | QueueEvent.dequeueTick f n, st => dequeuePass f n st

/-- Run a sequence of queue events from a given state, first event first. -/
def runQueueFrom (st : PoolQueueState) : List QueueEvent → PoolQueueState
  | [] => st
  | e :: t => runQueueFrom (applyQueueEvent e st) t

/-- Run a sequence of queue events from the empty pool. -/
def runQueue (t : List QueueEvent) : PoolQueueState :=
  runQueueFrom ⟨[], []⟩ t

/-- The requests submitted in a trace, in submission order. -/
def enqueuedOf : List QueueEvent → List Nat
  | [] => []
  | QueueEvent.enqueue r :: t => r :: enqueuedOf t
  | QueueEvent.dequeueTick _ _ :: t => enqueuedOf t

/-- A dequeue pass moves requests from the front of the queue to the back of
the admitted order: the concatenation of admitted order and queue is
invariant. -/
lemma dequeuePass_order (f : Nat → Bool) (n : Nat) (st : PoolQueueState) :
    (dequeuePass f n st).admittedOrder ++ (dequeuePass f n st).queue =
      st.admittedOrder ++ st.queue := by
  induction n generalizing st with
  | zero => rfl
  | succ n ih =>
    cases hq : st.queue with
    | nil => simp [dequeuePass, hq]
    | cons q rest =>
      by_cases hf : f q = true
      · simp only [dequeuePass, hq, hf, if_true]
        rw [ih]
        simp
      · simp [dequeuePass, hq, hf]

/-- A dequeue pass whose head request cannot be admitted changes nothing. -/
lemma dequeuePass_blocked (f : Nat → Bool) (n : Nat) (st : PoolQueueState)
    (q : Nat) (rest : List Nat) (hq : st.queue = q :: rest)
    (hf : f q = false) : dequeuePass f n st = st := by
  cases n with
  | zero => rfl
  | succ n => simp [dequeuePass, hq, hf]

/-- Running a trace extends the admitted-plus-queued sequence exactly by the
submitted requests, in submission order. -/
lemma runQueueFrom_order (t : List QueueEvent) : ∀ st : PoolQueueState,
    (runQueueFrom st t).admittedOrder ++ (runQueueFrom st t).queue =
      st.admittedOrder ++ (st.queue ++ enqueuedOf t) := by
  induction t with
  | nil => intro st; simp [runQueueFrom, enqueuedOf]
  | cons e t ih =>
    intro st
    cases e with
    | enqueue r =>
      have h := ih { st with queue := st.queue ++ [r] }
      simp only [runQueueFrom, applyQueueEvent, enqueuedOf]
      rw [h]
      simp
    | dequeueTick f n =>
      have h := ih (dequeuePass f n st)
      simp only [runQueueFrom, applyQueueEvent, enqueuedOf]
      rw [h, ← List.append_assoc, dequeuePass_order, List.append_assoc]

/-- Claim C9: within a single pool on a single coordinator, queued requests
are admitted in FIFO order.  Over every serialized trace of submissions and
dequeue passes: the admitted order followed by the still-queued requests is
exactly the submission order (so if submit of A completes queueing before
submit of B, A is admitted before B), the admitted order is the corresponding
initial segment of the submission order, and a dequeue pass admits nothing
when the head of the queue cannot be admitted. -/
theorem requestQueue_fifo (t : List QueueEvent) :
    (runQueue t).admittedOrder ++ (runQueue t).queue = enqueuedOf t ∧
    (runQueue t).admittedOrder =
      (enqueuedOf t).take (runQueue t).admittedOrder.length ∧
    (∀ (f : Nat → Bool) (n q : Nat) (rest : List Nat),
      (runQueue t).queue = q :: rest → f q = false →
      applyQueueEvent (QueueEvent.dequeueTick f n) (runQueue t) =
        runQueue t) := by
  have h1 : (runQueue t).admittedOrder ++ (runQueue t).queue = enqueuedOf t := by
    have h := runQueueFrom_order t ⟨[], []⟩
    simpa [runQueue] using h
  refine ⟨h1, ?_, ?_⟩
  · rw [← h1, List.take_left]
  · intro f n q rest hq hf
    simp only [applyQueueEvent]
    exact dequeuePass_blocked f n (runQueue t) q rest hq hf

/-- The sample trace used by the C9 witness: two submissions, a dequeue pass
with budget 1 admitting the first, then a third submission. -/
def sampleTrace : List QueueEvent :=
  [QueueEvent.enqueue 1, QueueEvent.enqueue 2,
    QueueEvent.dequeueTick (fun _ => true) 1, QueueEvent.enqueue 3]

/-- Witness for C9 on the sample trace: the admitted order concatenated with
the queue is the submission order, and a pass refusing the head request 2
changes nothing. -/
theorem requestQueue_fifo_witness :
    (runQueue sampleTrace).admittedOrder ++ (runQueue sampleTrace).queue =
      enqueuedOf sampleTrace ∧
    applyQueueEvent (QueueEvent.dequeueTick (fun _ => false) 5)
      (runQueue sampleTrace) = runQueue sampleTrace :=
  ⟨(requestQueue_fifo sampleTrace).1,
    (requestQueue_fifo sampleTrace).2.2 (fun _ => false) 5 2 [3] rfl rfl⟩
